import Mathlib

/-!
Shallow embedding of the backend of the Cramerton Development Status Tracker
(src/backend/main.py) and verification of its data-access contract.

Modelling conventions:
* A Python record (one CSV row as produced by csv.DictReader) is an ordered
  association list from field name to optional string value; Python dicts
  preserve insertion order, and all records produced by load_data carry
  exactly the header's keys in header order, so the association-list model
  is faithful for them.
* The blob object is modelled at the parsed-row level (header plus rows of
  cell strings): the csv module's writer/reader pair is a bijection between
  rows of strings and encoded delimited lines, so byte-level quoting is
  abstracted away.  csv.DictReader's handling of rows longer than the
  header (the restkey None entry) is not modelled; theorems that quantify
  over stores assume rows no longer than the header where it matters.
  Duplicate header names (which Python's dict would collapse) are excluded
  by Nodup hypotheses where relevant.
* HTTP handlers are modelled as pure functions threading the store state
  explicitly; the only operation that changes the store is the upload
  inside save_data, so a handler returning its input store models "no
  upload was performed".
* Python exceptions are modelled with Except.  HTTPException(s, d) prints
  as "s: d" via str(e), which exStr reproduces; csv.DictWriter's
  ValueError message is reproduced as a fixed string.
-/

namespace Cramerton

/-- One project record: an ordered field-name / optional-value mapping
(a Python dict with Optional[str] values). -/
abbrev Record := List (String × Option String)

/-- The key set of a record, in insertion order (Python dict .keys()). -/
def keys (r : Record) : List String := r.map Prod.fst

/-- Dictionary lookup: some v if the key is present with value v, none if the
key is absent (first entry wins, matching unique-key Python dicts). -/
def rlookup (r : Record) (k : String) : Option (Option String) :=
  (r.find? (fun kv => kv.1 == k)).map Prod.snd

/-- The value stored at a key, reading an absent key as None.  Handlers only
apply this to records loaded from the store, which always carry every header
key, so the absent-key case never arises for them. -/
def rvalue (r : Record) (k : String) : Option String :=
  match rlookup r k with
  | some v => v
  | none => none

/-- The backing blob object, at parsed-CSV granularity: the header row and
the data rows. -/
structure CSVData where
  header : List String
  rows : List (List String)
deriving DecidableEq, Repr

/-- The post-load cleanup in load_data: `if not value: project[key] = None`
maps the empty string (and an already-absent value) to None. -/
def cleanVal : Option String → Option String
  | none => none
  | some s => if s = "" then none else some s

/-- csv.DictReader row construction: zip the header with the row's cells,
padding missing cells with restval None, then apply load_data's cleanup. -/
def readRow : List String → List String → Record
  | [], _ => []
  | k :: ks, [] => (k, none) :: readRow ks []
  | k :: ks, c :: cs => (k, cleanVal (some c)) :: readRow ks cs

/-- load_data: parse the blob with csv.DictReader (which skips blank rows)
and normalise empty values to None. -/
def load_data (store : CSVData) : List Record :=
  (store.rows.filter (fun row => !row.isEmpty)).map (readRow store.header)

/-- csv.DictWriter cell: a missing key is written as restval "", and the csv
writer renders a None value as the empty string. -/
def writeCell (r : Record) (k : String) : String :=
  match rlookup r k with
  | some (some s) => s
  | some none => ""
  | none => ""

/-- One output row of csv.DictWriter: the record's values in header order. -/
def rowOf (header : List String) (r : Record) : List String :=
  header.map (writeCell r)

/-- csv.DictWriter's extrasaction check: the record's keys that are not
among the fieldnames. -/
def extraFields (header : List String) (r : Record) : List String :=
  (keys r).filter (fun k => !header.contains k)

/-- csv.DictWriter.writerows with extrasaction="raise" (the default used in
save_data): a row holding a key outside the fieldnames raises ValueError;
otherwise each record is written in header order. -/
def serializeRows (header : List String) : List Record → Except String (List (List String))
  | [] => .ok []
  | r :: rs =>
    if extraFields header r ≠ [] then
      .error "dict contains fields not in fieldnames"
    else
      match serializeRows header rs with
      | .ok rows => .ok (rowOf header r :: rows)
      | .error msg => .error msg

/-- A raised HTTPException (status code and detail). -/
inductive Ex where
  | http (status : Nat) (detail : String)
deriving DecidableEq, Repr

/-- Python's str() of an HTTPException: "status: detail". -/
def exStr : Ex → String
  | .http s d => toString s ++ ": " ++ d

/-- save_data: no-op returning the store untouched on an empty collection;
otherwise serialize with the first record's keys as fieldnames and overwrite
the blob.  Any serialization error is caught and re-raised as
HTTPException(500, "Failed to save data: ..."); on error the upload is never
reached, so the store is unchanged (the Except.error carries no new store). -/
def save_data : List Record → CSVData → Except Ex CSVData
  | [], store => .ok store
  | p :: ps, _ =>
    match serializeRows (keys p) (p :: ps) with
    | .ok rows => .ok ⟨keys p, rows⟩
    | .error msg => .error (.http 500 ("Failed to save data: " ++ msg))

/-- The outcome of one HTTP request: response status, response body message,
and the store after the request. -/
structure HttpResult where
  status : Nat
  body : String
  store : CSVData
deriving DecidableEq, Repr

/-- The (category, name) identity test used by the handlers:
p[Category] == category and p[Project Name] == project_name
(a None field value never equals a string). -/
def matchesId (category name : String) (p : Record) : Bool :=
  rvalue p "Category" == some category && rvalue p "Project Name" == some name

/-- Assignment to an existing dict key: replace the value in place,
preserving the key's position. -/
def setField (r : Record) (k : String) (v : Option String) : Record :=
  r.map (fun f => if f.1 == k then (f.1, v) else f)

/-- The merge-patch loop of update_project:
for key, value in project_data.items(): if key in record: record[key] = value. -/
def applyPatch (r : Record) (patch : List (String × Option String)) : Record :=
  patch.foldl (fun acc kv => if (keys acc).contains kv.1 then setField acc kv.1 kv.2 else acc) r

/-- In-place mutation of the list element at an index (projects[i] = ...);
out-of-range indices leave the list unchanged. -/
def modifyAt {α : Type} : List α → Nat → (α → α) → List α
  | [], _, _ => []
  | x :: xs, 0, f => f x :: xs
  | x :: xs, Nat.succ n, f => x :: modifyAt xs n f

/-- Python's next((i for i, p in enumerate(l) if pred p), None): the index of
the first element satisfying the predicate. -/
def firstIdx {α : Type} (p : α → Bool) : List α → Option Nat
  | [] => none
  | a :: l => if p a then some 0 else (firstIdx p l).map (· + 1)

/-- The collection update_project hands to save_data: the record at the
located index merge-patched, every other record untouched. -/
def update_merge (projects : List Record) (i : Nat) (patch : List (String × Option String)) : List Record :=
  modifyAt projects i (fun p => applyPatch p patch)

/-- PUT /projects/category/name.  The 404 raised on a missing record is
swallowed by the handler's blanket except Exception, which re-raises it as
HTTPException(500, "Failed to update project: 404: Project not found"). -/
def update_project (category name : String) (patch : List (String × Option String)) (store : CSVData) : HttpResult :=
  let projects := load_data store
  match firstIdx (matchesId category name) projects with
  | none => ⟨500, "Failed to update project: " ++ exStr (.http 404 "Project not found"), store⟩
  | some i =>
    match save_data (update_merge projects i patch) store with
    | .ok st => ⟨200, "Project updated successfully", st⟩
    | .error e => ⟨500, "Failed to update project: " ++ exStr e, store⟩

/-- POST /projects: append the raw body to the loaded collection and save. -/
def add_project (body : Record) (store : CSVData) : HttpResult :=
  match save_data (load_data store ++ [body]) store with
  | .ok st => ⟨200, "Project added successfully", st⟩
  | .error e => ⟨500, "Failed to add project: " ++ exStr e, store⟩

/-- DELETE /projects/category/name: remove every matching record; the 404
raised when nothing was removed is swallowed by the blanket except and
re-raised as a 500, like in update_project. -/
def delete_project (category name : String) (store : CSVData) : HttpResult :=
  let projects := load_data store
  let remaining := projects.filter (fun p => !matchesId category name p)
  if remaining.length == projects.length then
    ⟨500, "Failed to delete project: " ++ exStr (.http 404 "Project not found"), store⟩
  else
    match save_data remaining store with
    | .ok st => ⟨200, "Project deleted successfully", st⟩
    | .error e => ⟨500, "Failed to delete project: " ++ exStr e, store⟩

/-- Deployment configuration: JWT signing secret and admin credentials. -/
structure Env where
  secretKey : String
  adminUsername : String
  adminPassword : String

def ALGORITHM : String := "HS256"

def ACCESS_TOKEN_EXPIRE_MINUTES : Nat := 30

/-- A signed JWT, abstracted to its payload (string claims plus the exp
claim, in seconds), the signing key and the algorithm. -/
structure Jwt where
  claims : List (String × String)
  exp : Nat
  key : String
  alg : String
deriving DecidableEq, Repr

/-- create_access_token: copy the claims, set exp to now plus the supplied
delta (default 15 minutes), sign with SECRET_KEY under HS256. -/
def create_access_token (env : Env) (data : List (String × String)) (expiresDelta : Option Nat) (now : Nat) : Jwt :=
  ⟨data,
   now + (match expiresDelta with | some d => d | none => 15 * 60),
   env.secretKey, ALGORITHM⟩

/-- Outcome of POST /token. -/
inductive LoginResult where
  | token (t : Jwt)
  | unauthorized (detail : String)
deriving DecidableEq, Repr

/-- POST /token: compare against the configured admin credentials; on match
issue a token with the username as "sub" and a 30-minute lifetime, else 401. -/
def login_for_access_token (env : Env) (username password : String) (now : Nat) : LoginResult :=
  if username ≠ env.adminUsername ∨ password ≠ env.adminPassword then
    .unauthorized "Incorrect username or password"
  else
    .token (create_access_token env [("sub", username)] (some (ACCESS_TOKEN_EXPIRE_MINUTES * 60)) now)

/-! ### Helper lemmas -/

theorem keys_readRow : ∀ (ks cs : List String), keys (readRow ks cs) = ks := by
  intro ks
  induction ks with
  | nil => intro cs; cases cs <;> rfl
  | cons k ks ih =>
    intro cs
    cases cs with
    | nil => simpa [readRow, keys] using congrArg (List.cons k) (ih [])
    | cons c cs => simpa [readRow, keys] using congrArg (List.cons k) (ih cs)

theorem cleanVal_ne_some_empty (v : Option String) : cleanVal v ≠ some "" := by
  cases v with
  | none => simp [cleanVal]
  | some s =>
    by_cases h : s = "" <;> simp [cleanVal, h]

theorem readRow_no_empty_string : ∀ (ks cs : List String) (k : String),
    (k, some "") ∉ readRow ks cs := by
  intro ks
  induction ks with
  | nil => intro cs k; cases cs <;> simp [readRow]
  | cons k0 ks ih =>
    intro cs k
    cases cs with
    | nil =>
      simp only [readRow, List.mem_cons]
      rintro (h | h)
      · exact Option.noConfusion (congrArg Prod.snd h)
      · exact ih [] k h
    | cons c cs =>
      simp only [readRow, List.mem_cons]
      rintro (h | h)
      · exact cleanVal_ne_some_empty (some c) (congrArg Prod.snd h).symm
      · exact ih cs k h

theorem rlookup_cons_self (k : String) (v : Option String) (r : Record) :
    rlookup ((k, v) :: r) k = some v := by
  simp [rlookup, List.find?]

theorem rlookup_cons_ne (k1 k : String) (v : Option String) (r : Record) (h : k1 ≠ k) :
    rlookup ((k1, v) :: r) k = rlookup r k := by
  have hb : (k1 == k) = false := beq_eq_false_iff_ne.mpr h
  simp [rlookup, List.find?, hb]

theorem rowOf_readRow : ∀ (ks cs : List String), ks.Nodup → cs.length = ks.length →
    rowOf ks (readRow ks cs) = cs := by
  intro ks
  induction ks with
  | nil =>
    intro cs _ hlen
    rw [List.length_nil, List.length_eq_zero] at hlen
    subst hlen; rfl
  | cons k ks ih =>
    intro cs hnd hlen
    cases cs with
    | nil => simp at hlen
    | cons c cs =>
      have hk : k ∉ ks := (List.nodup_cons.mp hnd).1
      have hnd' : ks.Nodup := (List.nodup_cons.mp hnd).2
      have hlen' : cs.length = ks.length := by simpa using hlen
      have hhead : writeCell ((k, cleanVal (some c)) :: readRow ks cs) k = c := by
        rw [writeCell, rlookup_cons_self]
        by_cases hc : c = "" <;> simp [cleanVal, hc]
      have htail : ks.map (writeCell ((k, cleanVal (some c)) :: readRow ks cs)) =
          ks.map (writeCell (readRow ks cs)) := by
        apply List.map_congr_left
        intro a ha
        have hak : k ≠ a := fun he => hk (he ▸ ha)
        rw [writeCell, writeCell, rlookup_cons_ne _ _ _ _ hak]
      calc rowOf (k :: ks) (readRow (k :: ks) (c :: cs))
          = writeCell ((k, cleanVal (some c)) :: readRow ks cs) k ::
              ks.map (writeCell ((k, cleanVal (some c)) :: readRow ks cs)) := rfl
        _ = c :: ks.map (writeCell (readRow ks cs)) := by rw [hhead, htail]
        _ = c :: cs := by rw [show ks.map (writeCell (readRow ks cs)) = rowOf ks (readRow ks cs) from rfl, ih cs hnd' hlen']

theorem extraFields_eq_nil (header : List String) (r : Record)
    (h : ∀ k ∈ keys r, k ∈ header) : extraFields header r = [] := by
  rw [extraFields, List.filter_eq_nil_iff]
  intro a ha
  simp only [Bool.not_eq_true', Bool.not_eq_false]
  exact (List.elem_iff).mpr (h a ha)

theorem extraFields_ne_nil (header : List String) (r : Record) (k : String)
    (hk : k ∈ keys r) (hout : k ∉ header) : extraFields header r ≠ [] := by
  intro hnil
  rw [extraFields, List.filter_eq_nil_iff] at hnil
  exact hnil k hk (by simpa [List.elem_iff] using hout)

theorem serializeRows_ok (header : List String) :
    ∀ (ps : List Record), (∀ r ∈ ps, extraFields header r = []) →
    serializeRows header ps = .ok (ps.map (rowOf header)) := by
  intro ps
  induction ps with
  | nil => intro _; rfl
  | cons r rs ih =>
    intro h
    have hr : extraFields header r = [] := h r (List.mem_cons_self r rs)
    have hrs := ih (fun x hx => h x (List.mem_cons_of_mem r hx))
    simp [serializeRows, hr, hrs]

theorem serializeRows_error (header : List String) :
    ∀ (ps : List Record), (∃ r ∈ ps, extraFields header r ≠ []) →
    serializeRows header ps = .error "dict contains fields not in fieldnames" := by
  intro ps
  induction ps with
  | nil => rintro ⟨r, hr, _⟩; cases hr
  | cons r rs ih =>
    rintro ⟨x, hx, hex⟩
    rcases List.mem_cons.mp hx with rfl | hx'
    · simp [serializeRows, hex]
    · by_cases hr : extraFields header r = []
      · have := ih ⟨x, hx', hex⟩
        simp [serializeRows, hr, this]
      · simp [serializeRows, hr]

theorem modifyAt_getElem_ne {α : Type} :
    ∀ (l : List α) (i : Nat) (f : α → α) (j : Nat), j ≠ i →
    (modifyAt l i f)[j]? = l[j]? := by
  intro l
  induction l with
  | nil => intro i f j _; cases i <;> rfl
  | cons x xs ih =>
    intro i f j hji
    cases i with
    | zero =>
      cases j with
      | zero => exact absurd rfl hji
      | succ j => simp [modifyAt]
    | succ i =>
      cases j with
      | zero => simp [modifyAt]
      | succ j =>
        have : j ≠ i := fun h => hji (h ▸ rfl)
        simpa [modifyAt] using ih i f j this

theorem firstIdx_first {α : Type} (p : α → Bool) :
    ∀ (l : List α) (i : Nat), firstIdx p l = some i →
    ∀ j, j < i → ∀ x, l[j]? = some x → p x = false := by
  intro l
  induction l with
  | nil => intro i h; cases h
  | cons a l ih =>
    intro i h j hj x hx
    by_cases ha : p a
    · rw [firstIdx, if_pos ha] at h
      cases h
      exact absurd hj (Nat.not_lt_zero j)
    · rw [firstIdx, if_neg ha] at h
      match hfi : firstIdx p l with
      | none => rw [hfi] at h; cases h
      | some i' =>
        rw [hfi] at h
        cases h
        cases j with
        | zero =>
          rw [List.getElem?_cons_zero] at hx
          obtain rfl : a = x := Option.some.inj hx
          exact Bool.eq_false_iff.mpr ha
        | succ j =>
          rw [List.getElem?_cons_succ] at hx
          exact ih i' hfi j (Nat.lt_of_succ_lt_succ hj) x hx

/-! ### Claim theorems -/

/-- Claim C6: save_data applied to an empty collection is a no-op: it
returns without error and the backing blob object is left unchanged (the
model returns the input store itself, i.e. no upload happens). -/
theorem save_data_empty_noop (store : CSVData) : save_data [] store = .ok store := rfl

/-- Claim C7: every record produced by load_data normalises stored empty
strings to absent: no record returned by load_data maps any field to the
empty string. -/
theorem load_data_no_empty_string_values (store : CSVData) (r : Record) (k : String)
    (hr : r ∈ load_data store) : (k, some "") ∉ r := by
  rw [load_data] at hr
  obtain ⟨row, _, rfl⟩ := List.mem_map.mp hr
  exact readRow_no_empty_string store.header row k

/-- Witness for C7 on a concrete store holding an empty cell. -/
theorem load_data_no_empty_string_values_witness :
    (("Category", some "") : String × Option String) ∉
      ([("Category", none), ("Project Name", some "Elm")] : Record) :=
  load_data_no_empty_string_values ⟨["Category", "Project Name"], [["", "Elm"]]⟩
    [("Category", none), ("Project Name", some "Elm")] "Category" (by decide)

/-- Claim C5: the merge-patch of update_project applied with a patch whose
keys are all absent from the target record leaves the record unchanged: no
patch key is added as a new field and no existing value is altered. -/
theorem applyPatch_unknown_keys_noop (r : Record) (patch : List (String × Option String))
    (h : ∀ kv ∈ patch, kv.1 ∉ keys r) : applyPatch r patch = r := by
  induction patch with
  | nil => rfl
  | cons kv rest ih =>
    have hk : ((keys r).contains kv.1) = false := by
      have := h kv (List.mem_cons_self kv rest)
      simpa [List.elem_iff] using this
    rw [applyPatch, List.foldl_cons, hk]
    simp only [Bool.false_eq_true, if_false]
    exact ih (fun x hx => h x (List.mem_cons_of_mem kv hx))

/-- Witness for C5 at a concrete record and patch. -/
theorem applyPatch_unknown_keys_noop_witness :
    applyPatch [("Category", some "Rezoning")] [("NewField", some "x")] =
      [("Category", some "Rezoning")] :=
  applyPatch_unknown_keys_noop [("Category", some "Rezoning")] [("NewField", some "x")]
    (by decide)

/-- Claim C4: for a non-empty stored collection whose rows all carry the
header's field set (distinct header names, one cell per header field),
loading the dataset, saving it unchanged and loading again yields the same
records; in fact the re-saved blob equals the original blob. -/
theorem load_save_load_roundtrip (store : CSVData)
    (hnd : store.header.Nodup)
    (hlen : ∀ row ∈ store.rows, row.length = store.header.length)
    (hne : load_data store ≠ []) :
    ∃ st, save_data (load_data store) store = .ok st ∧ load_data st = load_data store := by
  refine ⟨store, ?_, rfl⟩
  have hpos : store.header ≠ [] := by
    intro h0
    apply hne
    rw [load_data]
    have hf : store.rows.filter (fun row => !row.isEmpty) = [] := by
      rw [List.filter_eq_nil_iff]
      intro row hrow
      have hl := hlen row hrow
      rw [h0, List.length_nil, List.length_eq_zero] at hl
      simp [hl]
    rw [hf, List.map_nil]
  have hfilter : store.rows.filter (fun row => !row.isEmpty) = store.rows := by
    rw [List.filter_eq_self]
    intro row hrow
    have hl := hlen row hrow
    have hrne : row ≠ [] := by
      intro h
      rw [h, List.length_nil] at hl
      exact hpos (List.length_eq_zero.mp hl.symm)
    cases row with
    | nil => exact absurd rfl hrne
    | cons a l => rfl
  have hload : load_data store = store.rows.map (readRow store.header) := by
    rw [load_data, hfilter]
  obtain ⟨row0, rest, hrows⟩ : ∃ row0 rest, store.rows = row0 :: rest := by
    cases hc : store.rows with
    | nil => exact absurd (by rw [hload, hc, List.map_nil]) hne
    | cons a l => exact ⟨a, l, rfl⟩
  have hmaps : ((row0 :: rest).map (readRow store.header)).map (rowOf store.header) =
      row0 :: rest := by
    rw [List.map_map]
    have hcg : ∀ row ∈ row0 :: rest,
        (rowOf store.header ∘ readRow store.header) row = id row := by
      intro row hrow
      exact rowOf_readRow store.header row hnd (hlen row (hrows ▸ hrow))
    rw [List.map_congr_left hcg, List.map_id]
  have hser : serializeRows store.header ((row0 :: rest).map (readRow store.header)) =
      .ok (row0 :: rest) := by
    rw [serializeRows_ok store.header _ ?_, hmaps]
    intro r hr
    obtain ⟨row, hrow, rfl⟩ := List.mem_map.mp hr
    exact extraFields_eq_nil _ _ (fun k hk => (keys_readRow store.header row) ▸ hk)
  rw [hload, hrows, List.map_cons]
  simp only [save_data]
  rw [keys_readRow, ← List.map_cons, hser, ← hrows]

/-- Witness for C4 on a concrete one-row store. -/
theorem load_save_load_roundtrip_witness :
    ∃ st,
      save_data (load_data ⟨["Category", "Project Name"], [["Rezoning", "Oak St"]]⟩)
          ⟨["Category", "Project Name"], [["Rezoning", "Oak St"]]⟩ = .ok st ∧
      load_data st = load_data ⟨["Category", "Project Name"], [["Rezoning", "Oak St"]]⟩ :=
  load_save_load_roundtrip ⟨["Category", "Project Name"], [["Rezoning", "Oak St"]]⟩
    (by decide) (by decide) (by decide)

/-- Counterexample to claim C1 as stated: with a second record carrying the
extra field B, save_data does not succeed while dropping B — csv.DictWriter's
extrasaction="raise" makes it fail, and no .ok result exists. -/
theorem save_data_extra_field_counterexample :
    save_data [[("A", some "1")], [("A", some "2"), ("B", some "3")]] ⟨["A"], [["1"]]⟩ =
      .error (.http 500 "Failed to save data: dict contains fields not in fieldnames") ∧
    ∀ st, save_data [[("A", some "1")], [("A", some "2"), ("B", some "3")]] ⟨["A"], [["1"]]⟩ ≠
      Except.ok st := by
  refine ⟨by rfl, ?_⟩
  intro st h
  rw [show save_data [[("A", some "1")], [("A", some "2"), ("B", some "3")]] ⟨["A"], [["1"]]⟩ =
      .error (.http 500 "Failed to save data: dict contains fields not in fieldnames")
    from by rfl] at h
  cases h

/-- Claim C1 (amended): save_data serializes using the first record's field
names as the fixed column header; a field of a later record outside the
first record's key set is not silently dropped — it makes the save fail with
StorageWriteFailed and nothing is written.  When every record's keys lie in
the first record's key set, the save succeeds and writes each record
projected onto the header. -/
theorem save_data_first_record_header (p : Record) (ps : List Record) (store : CSVData) :
    ((∃ r ∈ p :: ps, ∃ k ∈ keys r, k ∉ keys p) →
      save_data (p :: ps) store =
        .error (.http 500 "Failed to save data: dict contains fields not in fieldnames")) ∧
    ((∀ r ∈ p :: ps, ∀ k ∈ keys r, k ∈ keys p) →
      save_data (p :: ps) store = .ok ⟨keys p, (p :: ps).map (rowOf (keys p))⟩) := by
  constructor
  · rintro ⟨r, hr, k, hk, hout⟩
    have hser := serializeRows_error (keys p) (p :: ps) ⟨r, hr, extraFields_ne_nil _ _ k hk hout⟩
    simp only [save_data, hser]
    rfl
  · intro h
    have hser := serializeRows_ok (keys p) (p :: ps)
      (fun r hr => extraFields_eq_nil _ _ (h r hr))
    simp only [save_data, hser]

/-- Witness for the amended C1, hitting the failure branch. -/
theorem save_data_first_record_header_witness :
    save_data [[("A", some "1")], [("A", some "2"), ("B", some "3")]] ⟨["A"], [["1"]]⟩ =
      .error (.http 500 "Failed to save data: dict contains fields not in fieldnames") :=
  (save_data_first_record_header [("A", some "1")] [[("A", some "2"), ("B", some "3")]]
    ⟨["A"], [["1"]]⟩).1 (by decide)

/-- Claim C2 evidence: on a store whose only record is (Rezoning, Oak St),
a PUT addressing the absent pair (Apartments, Main St) does not produce the
404 the code constructs — the handler's blanket except re-raises it as a
500 — while the store is indeed left unwritten. -/
theorem update_project_missing_returns_500 :
    update_project "Apartments" "Main St" []
        ⟨["Category", "Project Name"], [["Rezoning", "Oak St"]]⟩ =
      ⟨500, "Failed to update project: 404: Project not found",
        ⟨["Category", "Project Name"], [["Rezoning", "Oak St"]]⟩⟩ ∧
    (update_project "Apartments" "Main St" []
        ⟨["Category", "Project Name"], [["Rezoning", "Oak St"]]⟩).status ≠ 404 := by
  exact ⟨by decide, by decide⟩

/-- Claim C3 evidence: a DELETE addressing an absent pair removes nothing
and the 404 the code constructs is re-raised as a 500 by the blanket
except; the store is left unmodified. -/
theorem delete_project_missing_returns_500 :
    delete_project "Apartments" "Main St"
        ⟨["Category", "Project Name"], [["Rezoning", "Oak St"]]⟩ =
      ⟨500, "Failed to delete project: 404: Project not found",
        ⟨["Category", "Project Name"], [["Rezoning", "Oak St"]]⟩⟩ ∧
    (delete_project "Apartments" "Main St"
        ⟨["Category", "Project Name"], [["Rezoning", "Oak St"]]⟩).status ≠ 404 := by
  exact ⟨by decide, by decide⟩

/-- Claim C8: POST /token issues, for the configured admin credential pair,
a token signed with the configured secret, carrying the submitted username
as subject claim and expiring exactly 30 minutes (1800 seconds) after
issuance; any other credential pair is rejected with 401. -/
theorem login_token_contract (env : Env) (username password : String) (now : Nat) :
    ((username = env.adminUsername ∧ password = env.adminPassword) →
      login_for_access_token env username password now =
        .token ⟨[("sub", username)], now + 30 * 60, env.secretKey, "HS256"⟩) ∧
    ((username ≠ env.adminUsername ∨ password ≠ env.adminPassword) →
      login_for_access_token env username password now =
        .unauthorized "Incorrect username or password") := by
  constructor
  · rintro ⟨h1, h2⟩
    rw [login_for_access_token, if_neg (not_or.mpr ⟨not_not_intro h1, not_not_intro h2⟩)]
    rfl
  · intro h
    rw [login_for_access_token, if_pos h]

/-- Witness for C8 at concrete credentials. -/
theorem login_token_contract_witness :
    login_for_access_token ⟨"secret", "admin", "pw"⟩ "admin" "pw" 0 =
      .token ⟨[("sub", "admin")], 1800, "secret", "HS256"⟩ :=
  (login_token_contract ⟨"secret", "admin", "pw"⟩ "admin" "pw" 0).1 ⟨rfl, rfl⟩

/-- Claim C9: a POST /projects whose body holds a field name outside the
first loaded record's key set fails (csv.DictWriter rejects the row) with a
500 and leaves the backing store unchanged — the new record is not written. -/
theorem add_project_unknown_field_fails (store : CSVData) (body p : Record)
    (ps : List Record) (k : String)
    (hload : load_data store = p :: ps) (hk : k ∈ keys body) (hout : k ∉ keys p) :
    (add_project body store).status = 500 ∧ (add_project body store).store = store := by
  have hser : serializeRows (keys p) (p :: (ps ++ [body])) =
      .error "dict contains fields not in fieldnames" :=
    serializeRows_error _ _ ⟨body, by simp, extraFields_ne_nil _ _ k hk hout⟩
  have hsave : save_data (load_data store ++ [body]) store =
      .error (.http 500 ("Failed to save data: " ++ "dict contains fields not in fieldnames")) := by
    rw [hload]
    show save_data (p :: (ps ++ [body])) store = _
    simp only [save_data]
    rw [hser]
  simp only [add_project]
  rw [hsave]
  exact ⟨rfl, rfl⟩

/-- Witness for C9 on a concrete one-column store. -/
theorem add_project_unknown_field_fails_witness :
    (add_project [("New", some "x")] ⟨["Category"], [["Rezoning"]]⟩).status = 500 ∧
    (add_project [("New", some "x")] ⟨["Category"], [["Rezoning"]]⟩).store =
      ⟨["Category"], [["Rezoning"]]⟩ :=
  add_project_unknown_field_fails ⟨["Category"], [["Rezoning"]]⟩ [("New", some "x")]
    [("Category", some "Rezoning")] [] "New" (by decide) (by decide) (by decide)

/-- Claim C10: when a PUT locates its target at index i (the first match —
every earlier record fails the identity test), the collection handed to
save_data agrees with the loaded collection at every other index, duplicates
of the (category, name) pair included; and on a successful save the handler
returns 200 with exactly that saved store. -/
theorem update_project_frame (store : CSVData) (category name : String)
    (patch : List (String × Option String)) (i : Nat)
    (hfound : firstIdx (matchesId category name) (load_data store) = some i) :
    (∀ j, j ≠ i → (update_merge (load_data store) i patch)[j]? = (load_data store)[j]?) ∧
    (∀ j x, j < i → (load_data store)[j]? = some x → matchesId category name x = false) ∧
    (∀ st, save_data (update_merge (load_data store) i patch) store = .ok st →
      update_project category name patch store = ⟨200, "Project updated successfully", st⟩) := by
  refine ⟨?_, ?_, ?_⟩
  · intro j hj
    exact modifyAt_getElem_ne _ i _ j hj
  · intro j x hj hx
    exact firstIdx_first _ _ i hfound j hj x hx
  · intro st hst
    simp only [update_project, hfound, hst]

/-- Witness for C10 on a store with two duplicate (Rezoning, Oak St) rows:
the later duplicate at index 1 is untouched by the merge at index 0. -/
theorem update_project_frame_witness :
    (update_merge
        (load_data ⟨["Category", "Project Name"],
          [["Rezoning", "Oak St"], ["Rezoning", "Oak St"]]⟩) 0
        [("Project Name", some "Elm")])[1]? =
      (load_data ⟨["Category", "Project Name"],
        [["Rezoning", "Oak St"], ["Rezoning", "Oak St"]]⟩)[1]? :=
  (update_project_frame ⟨["Category", "Project Name"],
      [["Rezoning", "Oak St"], ["Rezoning", "Oak St"]]⟩ "Rezoning" "Oak St"
      [("Project Name", some "Elm")] 0 (by decide)).1 1 (by decide)

end Cramerton
